import Mathlib

/-!
Shallow embedding of the loopback-connector-keystonejs adapter
(`src/index.js`) and verification of its specification claims.

The adapter translates the LoopBack connector contract (create, save,
exists, find, updateOrCreate, destroy, all) into calls against a
KeystoneJS model registry.  JavaScript runtime values that flow through
the adapter (payloads, identifiers, engine errors, thrown exceptions)
are modelled by the inductive type `JSVal`; the external persistence
engine (KeystoneJS / mongoose) is modelled by per-model handles of
abstract functions, and the query handle type is a type parameter `Q`.
Callback completions `callback(err, value)` are modelled as pairs of
`JSVal`, with a missing argument rendered as `JSVal.undefined`.
-/

/-- Model of a JavaScript runtime value as it flows through the adapter.
Numbers are modelled as integers (no claim involves float behaviour). -/
inductive JSVal where
  | undefined
  | null
  | boolean (b : Bool)
  | num (n : Int)
  | str (s : String)
  | arr (xs : List JSVal)
  | obj (fields : List (String × JSVal))

/-- JavaScript truthiness, as tested by `if (x)`, `x && y` and `!!x` in the
source: `undefined`, `null`, `false`, `0` and the empty string are falsy,
every array and object is truthy. -/
def truthy : JSVal → Bool
  | .undefined => false
  | .null => false
  | .boolean b => b
  | .num n => n != 0
  | .str s => s != ""
  | .arr _ => true
  | .obj _ => true

/-- Strict-equality test `x === null || x === undefined` (line 213 of the
source): true exactly on the two absent-value constructors. -/
def isNullOrUndef : JSVal → Bool
  | .null => true
  | .undefined => true
  | _ => false

/-- Property read `v[k]`: on an object, the field value when present and
`undefined` otherwise; on any non-object primitive the read yields
`undefined` (the adapter never reads properties of `null`/`undefined`). -/
def getProp (v : JSVal) (k : String) : JSVal :=
  match v with
  | .obj fs =>
    match fs.lookup k with
    | some x => x
    | none => .undefined
  | _ => .undefined

/-- Field update used to model property assignment `data[k] = x`: replaces
the value at an existing key, otherwise appends the binding. -/
def setField : List (String × JSVal) → String → JSVal → List (String × JSVal)
  | [], k, x => [(k, x)]
  | (k1, v1) :: fs, k, x =>
    if k1 == k then (k1, x) :: fs else (k1, v1) :: setField fs k x

/-- Property assignment `v[k] = x` on an object value (no effect on
primitives, matching JavaScript's silent behaviour in sloppy mode). -/
def setProp (v : JSVal) (k : String) (x : JSVal) : JSVal :=
  match v with
  | .obj fs => .obj (setField fs k x)
  | _ => v

/-- Property deletion `delete v[k]` on an object value (line 230 of the
source performs `delete data._id`). -/
def deleteProp (v : JSVal) (k : String) : JSVal :=
  match v with
  | .obj fs => .obj (fs.filter (fun f => f.1 != k))
  | _ => v

mutual

/-- JavaScript string coercion as used by the concatenation
`cmd + ' is not a supported filter command'` (line 296 of the source):
`undefined` and `null` print as their names, numbers in decimal, arrays
join their elements with commas, plain objects print the generic tag. -/
def jsToString : JSVal → String
  | .undefined => "undefined"
  | .null => "null"
  | .boolean b => if b then "true" else "false"
  | .num n => toString n
  | .str s => s
  | .obj _ => "[object Object]"
  | .arr xs => jsArrToString xs

/-- Rendering of an array for string coercion: elements joined by commas,
with `null` and `undefined` elements rendered as the empty string. -/
def jsArrToString : List JSVal → String
  | [] => ""
  | [v] =>
    match v with
    | .undefined => ""
    | .null => ""
    | w => jsToString w
  | v :: vs =>
    (match v with
     | .undefined => ""
     | .null => ""
     | w => jsToString w) ++ "," ++ jsArrToString vs

end

/-- Whitelist of permitted filter commands (`filterWhitelist`,
lines 11-16 of the source). -/
def filterWhitelist : List String :=
  ["where", "populate", "sort", "limit"]

/-- Destructive `subFilter.shift()` (line 293): removes and returns the
leading element; on an empty array it returns `undefined` and leaves the
array unchanged. The pair is (returned element, array after the shift). -/
def shift : List JSVal → JSVal × List JSVal
  | [] => (.undefined, [])
  | c :: rest => (c, rest)

/-- Membership test `_.contains(filterWhitelist, cmd)` (line 295): `===`
comparison against the whitelist of strings, so only a string value can
ever be whitelisted. -/
def isWhitelisted : JSVal → Bool
  | .str s => filterWhitelist.contains s
  | _ => false

/-- Handle obtained from the KeystoneJS registry for one model name,
bundling the engine operations the adapter invokes on it.  `Q` is the
abstract type of chainable query handles.
* `save` models `new handle.model(data)` followed by `obj.save(cb)`
  (lines 112-115): the engine passes `save data` as the error argument
  to the callback (a falsy value on success).
* `findById` models `handle.model.findById(id, cb)` (lines 166-169,
  188-194): the engine passes the returned pair as `(err, data)`.
* `removeById` models `handle.model.findById(id).remove(cb)`
  (lines 256-258): the pair is the callback completion.
* `find` models the base query handle `handle.model.find()` (line 285).
* `applyCmd` models the method call `query[cmd].apply(query, subFilter)`
  (line 300) for a whitelisted command name; `Except.error ex` models the
  call throwing the JavaScript value `ex`.
* `exec` models `query.exec(cb)` (line 311): the engine passes the
  returned pair as `(err, data)` with `data` the list of documents. -/
structure KModelHandle (Q : Type) where
  save : JSVal → JSVal
  findById : JSVal → JSVal × JSVal
  removeById : JSVal → JSVal × JSVal
  find : Q
  applyCmd : Q → String → List JSVal → Except JSVal Q
  exec : Q → JSVal × List JSVal

/-- Model of the `keystone` settings handle.  `lists` is the registry
lookup `keystone.lists[model]` used by create, exists, find, destroy and
all; `top` is the lookup `keystone[model]` used only by `save`
(line 143 of the source reads `this.keystone[model].model`). -/
structure Keystone (Q : Type) where
  lists : String → KModelHandle Q
  top : String → KModelHandle Q

/-- State of one KeyStoneJS connector instance (constructor,
lines 40-58), together with the external operations `updateOrCreate`
dispatches to.
* `keystone` is `settings.keystone`; `modelPrefix` is
  `settings.modelPrefix` (`none` when absent; the empty string is falsy
  and disables stripping, matching `if (this.modelPrefix)`).
* `idName`, `getIdValue`, `setIdValue` are the identifier helpers of the
  framework base class (loopback-datasource-juggler `Connector`), which
  the spec treats as provided externally (spec section 6); they are kept
  abstract as functions of the (unstripped) model name.  `setIdValue`
  returns the mutated data object.
* `modelPrefixRegex` models the compiled regular expression
  `new RegExp('^' + this.modelPrefix)` built once in the constructor
  (line 53): the regex engine is part of the JavaScript runtime, so the
  compiled pattern is kept abstract as a matcher that returns the
  (start index, length) of the leftmost match of the pattern in a name,
  or `none` when the pattern does not match.  Theorems that depend on
  what the pattern `'^' + prefix` actually matches state that behaviour
  as explicit hypotheses on this field (for a prefix free of regex
  metacharacters it is `literalPrefixMatch`).
* `updateAttributes` — Modelled from the spec: the update-attributes
  operation is unimplemented in this core (the source only carries it in
  a comment block, lines 373-395, and spec section 4.1 flags it as an
  external dependency), so it is modelled as an abstract delegate from
  (model name, id value, data) to a callback completion. -/
structure KeyStoneJS (Q : Type) where
  keystone : Keystone Q
  modelPrefix : Option String
  modelPrefixRegex : String → Option (Nat × Nat)
  idName : String → String
  getIdValue : String → JSVal → JSVal
  setIdValue : String → JSVal → JSVal → JSVal
  updateAttributes : String → JSVal → JSVal → JSVal × JSVal

namespace KeyStoneJS

variable {Q : Type}

/-- Prefix stripping `modelName.replace(modelPrefixRegex, '')`
(lines 52-57): `String.prototype.replace` with a non-global regex and an
empty replacement string deletes the leftmost match of the compiled
pattern from the name — the characters from the match's start index for
its length — and returns the name unchanged when the pattern does not
match.  What the pattern matches is given by the abstract compiled
matcher `modelPrefixRegex`. -/
def removeModelPrefix (self : KeyStoneJS Q) (m : String) : String :=
  match self.modelPrefixRegex m with
  | some (i, k) => String.mk (m.data.take i ++ m.data.drop (i + k))
  | none => m

/-- Model name actually used for registry lookups: every operation other
than `updateOrCreate` begins with
`if (this.modelPrefix) model = this.removeModelPrefix(model);`
(for example lines 99-101), where the guard is JavaScript truthiness of
the prefix string. -/
def effectiveModel (self : KeyStoneJS Q) (model : String) : String :=
  match self.modelPrefix with
  | some p => if p == "" then model else self.removeModelPrefix model
  | none => model

/-- Record-unwrapping `fromDatabase` (lines 76-85): a falsy input yields
`null`, otherwise the `_doc` payload of the engine document is returned.
The model argument is accepted and ignored, as in the source. -/
def fromDatabase (_self : KeyStoneJS Q) (_model : String) (data : JSVal) : JSVal :=
  if truthy data then getProp data "_doc" else .null

/-- Operation `create` (lines 93-116): strips the prefix, constructs and
saves an engine record, and completes with `callback(err)` — the second
callback argument is always absent, modelled as `undefined`. -/
def create (self : KeyStoneJS Q) (model : String) (data : JSVal) : JSVal × JSVal :=
  let m := self.effectiveModel model
  ((self.keystone.lists m).save data, .undefined)

/-- Operation `save` (lines 124-147): identical to `create` except that
the handle is looked up via `this.keystone[model]` instead of
`this.keystone.lists[model]`. -/
def save (self : KeyStoneJS Q) (model : String) (data : JSVal) : JSVal × JSVal :=
  let m := self.effectiveModel model
  ((self.keystone.top m).save data, .undefined)

/-- Operation `exists` (lines 156-170; spelled `existsOp` because
`exists` is reserved): completes with `callback(err, !!(!err && data))`. -/
def existsOp (self : KeyStoneJS Q) (model : String) (id : JSVal) : JSVal × JSVal :=
  let m := self.effectiveModel model
  let r := (self.keystone.lists m).findById id
  (r.1, .boolean (!truthy r.1 && truthy r.2))

/-- Operation `find` (lines 178-195): on a truthy engine error the error
alone is forwarded; otherwise the document is unwrapped through
`fromDatabase` and the (falsy) error is passed along unchanged. -/
def find (self : KeyStoneJS Q) (model : String) (id : JSVal) : JSVal × JSVal :=
  let m := self.effectiveModel model
  let r := (self.keystone.lists m).findById id
  if truthy r.1 then (r.1, .undefined)
  else (r.1, self.fromDatabase m r.2)

/-- Operation `destroy` (lines 246-259): the engine removal completion is
forwarded verbatim. -/
def destroy (self : KeyStoneJS Q) (model : String) (id : JSVal) : JSVal × JSVal :=
  let m := self.effectiveModel model
  (self.keystone.lists m).removeById id

/-- Instrumented outcome of `updateOrCreate`: the callback completion
together with which delegates the call reached.  `setIdPathTaken` records
whether the branch of lines 228-231 (write the created id back onto
`data`, drop `_id`, return the mutated data) was taken. -/
structure UoCResult where
  outcome : JSVal × JSVal
  calledFind : Bool
  calledCreate : Bool
  calledUpdateAttributes : Bool
  setIdPathTaken : Bool

/-- Operation `updateOrCreate` (lines 204-238).  The identifier helpers
are invoked with the unstripped model name (no prefix stripping happens
in this function; only the delegated `find` and `create` strip).  The
branches follow the source exactly: strict equality of the extracted id
against `null`/`undefined` selects direct creation; otherwise a lookup
runs and a truthy instance dispatches to the external update-attributes
delegate, while a missing instance delegates to `create`, whose callback
receives no id argument. -/
def updateOrCreate (self : KeyStoneJS Q) (model : String) (data : JSVal) : UoCResult :=
  let idValue := self.getIdValue model data
  let idN := self.idName model
  if isNullOrUndef idValue then
    { outcome := self.create model data, calledFind := false, calledCreate := true,
      calledUpdateAttributes := false, setIdPathTaken := false }
  else
    let r := self.find model idValue
    if truthy r.1 then
      { outcome := (r.1, .undefined), calledFind := true, calledCreate := false,
        calledUpdateAttributes := false, setIdPathTaken := false }
    else if truthy r.2 then
      { outcome := self.updateAttributes model idValue data, calledFind := true,
        calledCreate := false, calledUpdateAttributes := true, setIdPathTaken := false }
    else
      let c := self.create model data
      if truthy c.1 then
        { outcome := (c.1, .undefined), calledFind := true, calledCreate := true,
          calledUpdateAttributes := false, setIdPathTaken := false }
      else if truthy c.2 then
        let data1 := self.setIdValue model data c.2
        let data2 := if truthy data1 && idN != "_id" then deleteProp data1 "_id" else data1
        { outcome := (.null, data2), calledFind := true, calledCreate := true,
          calledUpdateAttributes := false, setIdPathTaken := true }
      else
        { outcome := (.null, .null), calledFind := true, calledCreate := true,
          calledUpdateAttributes := false, setIdPathTaken := false }

/-- Filter-chaining loop of `all` (lines 287-306): the `_.each` over the
sub-filters with the `err` accumulator and the surrounding `try`/`catch`.
The first component is the value of the `err` variable after the loop
(`undefined` when it was never assigned), the second the final query handle,
the third the state of the caller's filter array — each processed
sub-filter has been destructively shifted, the sub-filters after an
abort are untouched.  A whitelist rejection assigns the concatenated
error string and makes every later iteration a no-op; an exception from
a command application is caught by the outer `catch` and assigned to
`err`, also skipping the rest of the loop. -/
def chainFilters (ap : Q → String → List JSVal → Except JSVal Q) :
    Q → List (List JSVal) → JSVal × Q × List (List JSVal)
  | q, [] => (.undefined, q, [])
  | q, sf :: rest =>
    let s := shift sf
    if isWhitelisted s.1 then
      match ap q (jsToString s.1) s.2 with
      | .ok q1 =>
        let r := chainFilters ap q1 rest
        (r.1, r.2.1, s.2 :: r.2.2)
      | .error ex => (ex, q, s.2 :: rest)
    else
      (.str (jsToString s.1 ++ " is not a supported filter command"), q, s.2 :: rest)

/-- Instrumented outcome of `all`: the callback completion, the query
handle `exec` ran on (`none` when the operation aborted before
execution), and the final state of the caller's filter argument
(`none` when no filter array was passed). -/
structure AllResult (Q : Type) where
  outcome : JSVal × JSVal
  executed : Option Q
  filterAfter : Option (List (List JSVal))

/-- Execution tail of `all` (lines 311-320): `query.exec` runs, a truthy
engine error is forwarded alone, and otherwise every returned document is
unwrapped through `fromDatabase` and the list is delivered as
`callback(null, _data)`. -/
def execQuery (self : KeyStoneJS Q) (h : KModelHandle Q) (m : String) (q : Q)
    (fa : Option (List (List JSVal))) : AllResult Q :=
  let r := h.exec q
  if truthy r.1 then
    { outcome := (r.1, .undefined), executed := some q, filterAfter := fa }
  else
    { outcome := (.null, .arr (r.2.map (fun item => self.fromDatabase m item))),
      executed := some q, filterAfter := fa }

/-- Operation `all` (lines 268-321).  A missing filter is replaced by the
plain object `{}` (line 275), which has no `length`, so both `none` and
an empty sequence skip the chaining loop and execute the base query.  A
non-empty sequence runs `chainFilters`; afterwards `if (err) return
callback(err)` checks the truthiness of the accumulated error, so a
truthy error aborts before execution while a falsy one (never assigned,
or a falsy thrown value) falls through to `exec`. -/
def all (self : KeyStoneJS Q) (model : String) (filter : Option (List (List JSVal))) :
    AllResult Q :=
  let m := self.effectiveModel model
  let h := self.keystone.lists m
  let query := h.find
  match filter with
  | none => self.execQuery h m query none
  | some fs =>
    if fs.length == 0 then self.execQuery h m query (some fs)
    else
      let r := chainFilters h.applyCmd query fs
      if truthy r.1 then
        { outcome := (r.1, .undefined), executed := none, filterAfter := some r.2.2 }
      else
        self.execQuery h m r.2.1 (some r.2.2)

/-- Spec-side description of filter application (spec section 4.1,
step 2, and the testable property for C5): each sub-filter's leading
command is applied to the query handle with the remaining elements as
positional arguments, left to right, stopping at the first exception.
`all` is proved to refine this sequential fold in the error-free case. -/
def applyFilterSeq (ap : Q → String → List JSVal → Except JSVal Q) :
    Q → List (List JSVal) → Except JSVal Q
  | q, [] => .ok q
  | q, sf :: rest =>
    let s := shift sf
    match ap q (jsToString s.1) s.2 with
    | .ok q1 => applyFilterSeq ap q1 rest
    | .error e => .error e

end KeyStoneJS

/-!
Concrete fixtures used to evaluate the definitions at explicit inputs:
a tracing query handle type that records the applied commands (newest
first), engine handles with chosen behaviours, and connector instances
built from them.
-/

/-- Query handle instrumentation for concrete runs: the list of
(command, arguments) pairs applied so far, newest first. -/
abbrev TraceQ := List (String × List JSVal)

/-- Matcher that the pattern `'^' + p` compiles to when the prefix
string p is free of regex metacharacters: the anchored literal matches
exactly the first `p.length` characters of a name that starts with p,
and nothing otherwise. -/
def literalPrefixMatch (p : String) : String → Option (Nat × Nat) :=
  fun m => if p.data.isPrefixOf m.data then some (0, p.data.length) else none

/-- Engine handle whose lookups succeed with a wrapped document, whose
command applications all succeed (recording themselves on the trace),
and whose execution returns one document wrapping the number 7. -/
def traceHandle : KModelHandle TraceQ where
  save := fun _ => .null
  findById := fun _ => (.null, .obj [("_doc", .obj [("x", .num 1)])])
  removeById := fun _ => (.null, .undefined)
  find := []
  applyCmd := fun q c args => .ok ((c, args) :: q)
  exec := fun _ => (.undefined, [.obj [("_doc", .num 7)]])

/-- Engine handle whose command applications all throw the given value. -/
def throwHandle (ex : JSVal) : KModelHandle TraceQ where
  save := fun _ => .null
  findById := fun _ => (.null, .null)
  removeById := fun _ => (.null, .undefined)
  find := []
  applyCmd := fun _ _ _ => .error ex
  exec := fun _ => (.undefined, [])

/-- Engine handle whose lookups find nothing and whose saves succeed. -/
def notFoundHandle : KModelHandle TraceQ where
  save := fun _ => .null
  findById := fun _ => (.null, .null)
  removeById := fun _ => (.null, .undefined)
  find := []
  applyCmd := fun q c args => .ok ((c, args) :: q)
  exec := fun _ => (.undefined, [])

/-- Connector instance over a fixed engine handle, with no model prefix
and the conventional identifier field name. -/
def mkConn (h : KModelHandle TraceQ) : KeyStoneJS TraceQ where
  keystone := { lists := fun _ => h, top := fun _ => h }
  modelPrefix := none
  modelPrefixRegex := fun _ => none
  idName := fun _ => "id"
  getIdValue := fun _ d => if truthy d then getProp d "id" else d
  setIdValue := fun _ d v => setProp d "id" v
  updateAttributes := fun _ _ _ => (.null, .str "updated")

/-- Connector with model prefix "p" over a registry whose entry named
"pY" finds a record while every other entry finds nothing; it separates
the behaviours of registry names that the prefix stripping conflates. -/
def prefixConn : KeyStoneJS TraceQ where
  keystone :=
    { lists := fun n => if n == "pY" then traceHandle else notFoundHandle,
      top := fun n => if n == "pY" then traceHandle else notFoundHandle }
  modelPrefix := some "p"
  modelPrefixRegex := literalPrefixMatch "p"
  idName := fun _ => "id"
  getIdValue := fun _ d => if truthy d then getProp d "id" else d
  setIdValue := fun _ d v => setProp d "id" v
  updateAttributes := fun _ _ _ => (.null, .str "updated")

namespace KeyStoneJS

variable {Q : Type}

/-- Filter-validation error strings are nonempty, hence truthy: the abort
check of line 308 always fires on a whitelist rejection. -/
theorem truthy_errorString (s : String) :
    truthy (.str (s ++ " is not a supported filter command")) = true := by
  simp only [truthy, bne_iff_ne, ne_eq, decide_eq_true_eq]
  intro h
  have h2 := congrArg String.length h
  rw [String.length_append] at h2
  have h3 : (" is not a supported filter command").length = 34 := by decide
  have h4 : ("" : String).length = 0 := rfl
  omega

/-- Processing a sub-filter sequence whose prefix is whitelisted and
applies without exception continues the chaining from the folded query:
the loop of lines 291-302 applies commands left to right. -/
theorem chainFilters_append_ok (ap : Q → String → List JSVal → Except JSVal Q)
    (pre : List (List JSVal)) (fs : List (List JSVal)) (q qk : Q)
    (hwl : ∀ sf ∈ pre, isWhitelisted (shift sf).1 = true)
    (hok : applyFilterSeq ap q pre = .ok qk) :
    chainFilters ap q (pre ++ fs) =
      ((chainFilters ap qk fs).1, (chainFilters ap qk fs).2.1,
       pre.map (fun sf => (shift sf).2) ++ (chainFilters ap qk fs).2.2) := by
  induction pre generalizing q with
  | nil =>
    simp only [applyFilterSeq] at hok
    cases hok
    simp
  | cons sf pre1 ih =>
    have hsf := hwl sf (by simp)
    have hrest : ∀ sf1 ∈ pre1, isWhitelisted (shift sf1).1 = true := by
      intro sf1 hm
      exact hwl sf1 (by simp [hm])
    simp only [applyFilterSeq] at hok
    simp only [List.cons_append, chainFilters, hsf, if_true]
    cases hap : ap q (jsToString (shift sf).1) (shift sf).2 with
    | ok q1 =>
      rw [hap] at hok
      simp only [List.append_eq]
      rw [ih q1 hrest hok]
      simp
    | error e =>
      rw [hap] at hok
      simp at hok

/-- Chaining stops at a sub-filter whose shifted head is not whitelisted,
assigning the concatenated error string (lines 295-298). -/
theorem chainFilters_bad_head (ap : Q → String → List JSVal → Except JSVal Q)
    (q : Q) (bad : List JSVal) (rest : List (List JSVal))
    (hbad : isWhitelisted (shift bad).1 = false) :
    chainFilters ap q (bad :: rest) =
      (.str (jsToString (shift bad).1 ++ " is not a supported filter command"),
       q, (shift bad).2 :: rest) := by
  simp only [chainFilters, hbad]
  simp

/-- Chaining a sub-filter sequence always shifts the first sub-filter:
every branch of the loop body removes its head before deciding. -/
theorem chainFilters_head_shifted (ap : Q → String → List JSVal → Except JSVal Q)
    (q : Q) (sf : List JSVal) (fs : List (List JSVal)) :
    ∃ rest1, (chainFilters ap q (sf :: fs)).2.2 = (shift sf).2 :: rest1 := by
  simp only [chainFilters]
  cases hw : isWhitelisted (shift sf).1 with
  | false => simp
  | true =>
    simp only [if_true]
    cases hap : ap q (jsToString (shift sf).1) (shift sf).2 with
    | ok q1 => simp
    | error e => simp

/-- Unfolding of `all` on a non-empty filter sequence: the chaining loop
runs, then either the truthy-error abort of line 308 or the execution
tail of line 311. -/
theorem all_cons (self : KeyStoneJS Q) (model : String) (sf : List JSVal)
    (fs : List (List JSVal)) :
    self.all model (some (sf :: fs)) =
      (let m := self.effectiveModel model
       let h := self.keystone.lists m
       let r := chainFilters h.applyCmd h.find (sf :: fs)
       if truthy r.1 then
         { outcome := (r.1, .undefined), executed := none, filterAfter := some r.2.2 }
       else self.execQuery h m r.2.1 (some r.2.2)) := by
  simp [all]

end KeyStoneJS

namespace KeyStoneJS

variable {Q : Type}

/-- Deleting a leftmost match that covers exactly the first `P.length`
characters of the prefixed name `P ++ X` recovers the bare name X. -/
theorem removeModelPrefix_strip (self : KeyStoneJS Q) (P X : String)
    (h : self.modelPrefixRegex (P ++ X) = some (0, P.data.length)) :
    self.removeModelPrefix (P ++ X) = X := by
  unfold removeModelPrefix
  rw [h]
  show String.mk ((P ++ X).data.take 0 ++ (P ++ X).data.drop (0 + P.data.length)) = X
  rw [List.take_zero, List.nil_append, Nat.zero_add, String.data_append, List.drop_left]

/-- A name the compiled pattern does not match is left untouched. -/
theorem removeModelPrefix_miss (self : KeyStoneJS Q) (X : String)
    (h : self.modelPrefixRegex X = none) :
    self.removeModelPrefix X = X := by
  unfold removeModelPrefix
  rw [h]

/-- With prefix P configured, when the compiled pattern `'^' + P` matches
exactly the first `P.length` characters of `P ++ X` and does not match X
at all, both the prefixed and the bare name resolve to X. -/
theorem effectiveModel_strip (self : KeyStoneJS Q) (P X : String)
    (hP : self.modelPrefix = some P)
    (hstrip : self.modelPrefixRegex (P ++ X) = some (0, P.data.length))
    (hmiss : self.modelPrefixRegex X = none) :
    self.effectiveModel (P ++ X) = X ∧ self.effectiveModel X = X := by
  have he : ("" : String) ++ X = X := by
    cases X with
    | mk d => rfl
  constructor
  · rw [effectiveModel, hP]
    cases hpe : P == "" with
    | true =>
      have hP0 : P = "" := beq_iff_eq.mp hpe
      simp only [hpe, if_true]
      rw [hP0]
      exact he
    | false =>
      simp only [hpe, Bool.false_eq_true, if_false]
      exact removeModelPrefix_strip self P X hstrip
  · rw [effectiveModel, hP]
    cases hpe : P == "" with
    | true => simp only [hpe, if_true]
    | false =>
      simp only [hpe, Bool.false_eq_true, if_false]
      exact removeModelPrefix_miss self X hmiss

end KeyStoneJS

namespace KeyStoneJS

variable {Q : Type}

/-- Unfolding of `all` on any non-empty filter sequence. -/
theorem all_ne_nil (self : KeyStoneJS Q) (model : String)
    (fs : List (List JSVal)) (h : fs ≠ []) :
    self.all model (some fs) =
      (let m := self.effectiveModel model
       let h1 := self.keystone.lists m
       let r := chainFilters h1.applyCmd h1.find fs
       if truthy r.1 then
         { outcome := (r.1, .undefined), executed := none, filterAfter := some r.2.2 }
       else self.execQuery h1 m r.2.1 (some r.2.2)) := by
  cases fs with
  | nil => cases h rfl
  | cons sf fs1 => exact all_cons self model sf fs1

/-- Chaining stops at a sub-filter whose whitelisted command application
throws: the exception is caught and stored in `err` (lines 304-306). -/
theorem chainFilters_throw (ap : Q → String → List JSVal → Except JSVal Q)
    (q : Q) (sf : List JSVal) (rest : List (List JSVal)) (ex : JSVal)
    (hcmd : isWhitelisted (shift sf).1 = true)
    (hthrow : ap q (jsToString (shift sf).1) (shift sf).2 = .error ex) :
    chainFilters ap q (sf :: rest) = (ex, q, (shift sf).2 :: rest) := by
  simp only [chainFilters, hcmd, if_true, hthrow]

/-- Projection of `all` on a non-empty filter: the caller's filter array
ends up in the state the chaining loop left it in, on every path. -/
theorem all_cons_filterAfter (self : KeyStoneJS Q) (model : String)
    (sf : List JSVal) (fs : List (List JSVal)) :
    (self.all model (some (sf :: fs))).filterAfter =
      some ((chainFilters (self.keystone.lists (self.effectiveModel model)).applyCmd
        (self.keystone.lists (self.effectiveModel model)).find (sf :: fs)).2.2) := by
  rw [all_cons]
  simp only [execQuery]
  split
  · rfl
  · split <;> rfl

/-- C1 (amended): for every filter sequence containing a sub-filter whose
leading command is outside the allow-list, provided that applying the
allow-listed sub-filters preceding the first offending one raises no
exception, `all` completes with the error string
`<command> is not a supported filter command` naming that offending
command, and the composed query is never executed, so no partial result
is delivered. -/
theorem C1_unsupported_command_aborts (self : KeyStoneJS Q)
    (model : String) (pre : List (List JSVal)) (bad : List JSVal)
    (rest : List (List JSVal)) (qk : Q)
    (hwl : ∀ sf ∈ pre, isWhitelisted (shift sf).1 = true)
    (hok : applyFilterSeq (self.keystone.lists (self.effectiveModel model)).applyCmd
      (self.keystone.lists (self.effectiveModel model)).find pre = .ok qk)
    (hbad : isWhitelisted (shift bad).1 = false) :
    (self.all model (some (pre ++ bad :: rest))).outcome =
      (.str (jsToString (shift bad).1 ++ " is not a supported filter command"), .undefined) ∧
    (self.all model (some (pre ++ bad :: rest))).executed = none := by
  have hne : pre ++ bad :: rest ≠ [] := by simp
  rw [all_ne_nil self model _ hne]
  simp only []
  rw [chainFilters_append_ok _ pre (bad :: rest) _ qk hwl hok,
      chainFilters_bad_head _ qk bad rest hbad]
  simp [truthy_errorString]

/-- Witness for C1 at a concrete engine: a successful `where` application
followed by the unsupported command `dropTable`. -/
theorem C1_witness :
    (∀ sf ∈ [[JSVal.str "where", JSVal.num 1]], isWhitelisted (shift sf).1 = true) ∧
    applyFilterSeq ((mkConn traceHandle).keystone.lists
        ((mkConn traceHandle).effectiveModel "M")).applyCmd
      ((mkConn traceHandle).keystone.lists ((mkConn traceHandle).effectiveModel "M")).find
      [[JSVal.str "where", JSVal.num 1]] = .ok [("where", [JSVal.num 1])] ∧
    isWhitelisted (shift [JSVal.str "dropTable"]).1 = false ∧
    ((mkConn traceHandle).all "M"
        (some ([[JSVal.str "where", JSVal.num 1]] ++ [JSVal.str "dropTable"] :: []))).outcome =
      (.str (jsToString (shift [JSVal.str "dropTable"]).1 ++
        " is not a supported filter command"), .undefined) ∧
    ((mkConn traceHandle).all "M"
        (some ([[JSVal.str "where", JSVal.num 1]] ++ [JSVal.str "dropTable"] :: []))).executed
      = none :=
  ⟨by decide, rfl, by decide,
   (C1_unsupported_command_aborts (mkConn traceHandle) "M" [[JSVal.str "where", JSVal.num 1]]
     [JSVal.str "dropTable"] [] [("where", [JSVal.num 1])] (by decide) rfl (by decide)).1,
   (C1_unsupported_command_aborts (mkConn traceHandle) "M" [[JSVal.str "where", JSVal.num 1]]
     [JSVal.str "dropTable"] [] [("where", [JSVal.num 1])] (by decide) rfl (by decide)).2⟩

/-- Counterexample to C1 as stated: the filter
`[["where"], ["dropTable"]]` contains the non-allow-listed command
`dropTable`, yet when the engine's `where` application throws the value
"boom" the operation completes with that exception, not with an error
string of the form `<command> is not a supported filter command`. -/
theorem C1_counterexample :
    ((mkConn (throwHandle (.str "boom"))).all "M"
        (some [[JSVal.str "where"], [JSVal.str "dropTable"]])).outcome
      = (.str "boom", .undefined) ∧
    (JSVal.str "boom") ≠
      .str ("dropTable" ++ " is not a supported filter command") := by
  constructor
  · rfl
  · intro h
    have h2 := JSVal.str.inj h
    exact absurd h2 (by decide)

end KeyStoneJS

namespace KeyStoneJS

variable {Q : Type}

/-- C8 (amended): an exception with a truthy value raised while applying
a filter command (after an exception-free allow-listed prefix) is caught
and delivered as the completion-callback error, and the query is never
executed in that case.  (A falsy thrown value is caught but then ignored
by the truthiness check of line 308, and the query executes — see the
counterexample.) -/
theorem C8_truthy_exception_aborts (self : KeyStoneJS Q)
    (model : String) (pre : List (List JSVal)) (sf : List JSVal)
    (rest : List (List JSVal)) (qk : Q) (ex : JSVal)
    (hwl : ∀ sf1 ∈ pre, isWhitelisted (shift sf1).1 = true)
    (hok : applyFilterSeq (self.keystone.lists (self.effectiveModel model)).applyCmd
      (self.keystone.lists (self.effectiveModel model)).find pre = .ok qk)
    (hcmd : isWhitelisted (shift sf).1 = true)
    (hthrow : (self.keystone.lists (self.effectiveModel model)).applyCmd qk
      (jsToString (shift sf).1) (shift sf).2 = .error ex)
    (htr : truthy ex = true) :
    (self.all model (some (pre ++ sf :: rest))).outcome = (ex, .undefined) ∧
    (self.all model (some (pre ++ sf :: rest))).executed = none := by
  have hne : pre ++ sf :: rest ≠ [] := by simp
  rw [all_ne_nil self model _ hne]
  simp only []
  rw [chainFilters_append_ok _ pre (sf :: rest) _ qk hwl hok,
      chainFilters_throw _ qk sf rest ex hcmd hthrow]
  simp [htr]

/-- Witness for C8 at a concrete engine whose `where` application throws
the truthy string "boom". -/
theorem C8_witness :
    truthy (.str "boom") = true ∧
    ((mkConn (throwHandle (.str "boom"))).all "M"
        (some ([] ++ [JSVal.str "where"] :: []))).outcome = (.str "boom", .undefined) ∧
    ((mkConn (throwHandle (.str "boom"))).all "M"
        (some ([] ++ [JSVal.str "where"] :: []))).executed = none :=
  ⟨rfl,
   (C8_truthy_exception_aborts (mkConn (throwHandle (.str "boom"))) "M" [] [JSVal.str "where"]
     [] [] (.str "boom") (by decide) rfl (by decide) rfl rfl).1,
   (C8_truthy_exception_aborts (mkConn (throwHandle (.str "boom"))) "M" [] [JSVal.str "where"]
     [] [] (.str "boom") (by decide) rfl (by decide) rfl rfl).2⟩

/-- Counterexample to C8 as stated: when the engine's `where` application
throws the falsy value `null`, the exception is caught but the abort
check `if (err)` does not fire, so the query executes anyway and a
success result is delivered — the exception neither becomes the
completion error nor prevents execution. -/
theorem C8_counterexample :
    ((mkConn (throwHandle .null)).all "M" (some [[JSVal.str "where"]])).executed
        = some ([] : TraceQ) ∧
    ((mkConn (throwHandle .null)).all "M" (some [[JSVal.str "where"]])).outcome
        = (.null, .arr []) :=
  ⟨rfl, rfl⟩

/-- C5: when every sub-filter of the sequence is allow-listed and applies
without exception, `all` applies each sub-filter's command to the query
handle with the remaining elements as positional arguments, in the
sequence's order (the sequential fold `applyFilterSeq`), and executes
exactly the resulting query afterwards; every sub-filter is also left
shifted in the caller's array. -/
theorem C5_filters_applied_in_order (self : KeyStoneJS Q) (model : String)
    (fs : List (List JSVal)) (qf : Q)
    (hwl : ∀ sf ∈ fs, isWhitelisted (shift sf).1 = true)
    (hok : applyFilterSeq (self.keystone.lists (self.effectiveModel model)).applyCmd
      (self.keystone.lists (self.effectiveModel model)).find fs = .ok qf) :
    (self.all model (some fs)).executed = some qf ∧
    (self.all model (some fs)).outcome =
      (if truthy ((self.keystone.lists (self.effectiveModel model)).exec qf).1 then
        (((self.keystone.lists (self.effectiveModel model)).exec qf).1, .undefined)
       else
        (.null, .arr ((((self.keystone.lists (self.effectiveModel model)).exec qf).2).map
          (fun item => self.fromDatabase (self.effectiveModel model) item)))) ∧
    (self.all model (some fs)).filterAfter = some (fs.map (fun sf => (shift sf).2)) := by
  cases fs with
  | nil =>
    simp only [applyFilterSeq] at hok
    cases hok
    refine ⟨?_, ?_, ?_⟩ <;> simp [all, execQuery] <;> split <;> simp
  | cons sf fs1 =>
    have hchain : chainFilters (self.keystone.lists (self.effectiveModel model)).applyCmd
        (self.keystone.lists (self.effectiveModel model)).find (sf :: fs1) =
        (.undefined, qf, (sf :: fs1).map (fun sf1 => (shift sf1).2)) := by
      have h2 := chainFilters_append_ok
        (self.keystone.lists (self.effectiveModel model)).applyCmd (sf :: fs1) []
        (self.keystone.lists (self.effectiveModel model)).find qf hwl hok
      simpa [chainFilters] using h2
    rw [all_cons]
    simp only [hchain]
    refine ⟨?_, ?_, ?_⟩ <;> simp [execQuery, truthy] <;> split <;> simp

/-- Witness for C5: `[["where", {a: 1}], ["limit", 5]]` applies
`where({a: 1})` first and `limit(5)` second on the tracing engine, and
the traced executed query records exactly those two applications in
order. -/
theorem C5_witness :
    (∀ sf ∈ [[JSVal.str "where", JSVal.obj [("a", JSVal.num 1)]], [JSVal.str "limit", JSVal.num 5]],
      isWhitelisted (shift sf).1 = true) ∧
    applyFilterSeq ((mkConn traceHandle).keystone.lists
        ((mkConn traceHandle).effectiveModel "M")).applyCmd
      ((mkConn traceHandle).keystone.lists ((mkConn traceHandle).effectiveModel "M")).find
      [[JSVal.str "where", JSVal.obj [("a", JSVal.num 1)]], [JSVal.str "limit", JSVal.num 5]]
      = .ok [("limit", [JSVal.num 5]), ("where", [JSVal.obj [("a", JSVal.num 1)]])] ∧
    ((mkConn traceHandle).all "M"
        (some [[JSVal.str "where", JSVal.obj [("a", JSVal.num 1)]],
               [JSVal.str "limit", JSVal.num 5]])).executed
      = some [("limit", [JSVal.num 5]), ("where", [JSVal.obj [("a", JSVal.num 1)]])] :=
  ⟨by decide, rfl,
   (C5_filters_applied_in_order (mkConn traceHandle) "M"
     [[JSVal.str "where", JSVal.obj [("a", JSVal.num 1)]], [JSVal.str "limit", JSVal.num 5]]
     [("limit", [JSVal.num 5]), ("where", [JSVal.obj [("a", JSVal.num 1)]])]
     (by decide) rfl).1⟩

end KeyStoneJS

namespace KeyStoneJS

variable {Q : Type}

/-- C4: `all(model, [])` and `all(model, null)` both execute the
unfiltered base query handle and deliver the same completion; when the
engine reports no error, the completion is the full result set with each
record unwrapped. -/
theorem C4_empty_and_null_filter_execute_base (self : KeyStoneJS Q) (model : String) :
    (self.all model none).executed =
      some (self.keystone.lists (self.effectiveModel model)).find ∧
    (self.all model (some [])).executed =
      some (self.keystone.lists (self.effectiveModel model)).find ∧
    (self.all model none).outcome = (self.all model (some [])).outcome ∧
    (truthy ((self.keystone.lists (self.effectiveModel model)).exec
        (self.keystone.lists (self.effectiveModel model)).find).1 = false →
      (self.all model none).outcome =
        (.null, .arr ((((self.keystone.lists (self.effectiveModel model)).exec
          (self.keystone.lists (self.effectiveModel model)).find).2).map
            (fun item => self.fromDatabase (self.effectiveModel model) item)))) := by
  refine ⟨?_, ?_, ?_, ?_⟩
  · simp [all, execQuery]
    split <;> rfl
  · simp [all, execQuery]
    split <;> rfl
  · simp only [all, execQuery]
    split <;> rfl
  · intro h
    simp [all, execQuery, h]

/-- Witness for C4 on the tracing engine: both calls execute the base
query and return the unwrapped single document. -/
theorem C4_witness :
    truthy (((mkConn traceHandle).keystone.lists
        ((mkConn traceHandle).effectiveModel "M")).exec
      ((mkConn traceHandle).keystone.lists ((mkConn traceHandle).effectiveModel "M")).find).1
      = false ∧
    ((mkConn traceHandle).all "M" none).outcome = (.null, .arr [JSVal.num 7]) ∧
    ((mkConn traceHandle).all "M" none).executed = some ([] : TraceQ) := by
  refine ⟨rfl, ?_, ?_⟩
  · have h := (C4_empty_and_null_filter_execute_base (mkConn traceHandle) "M").2.2.2 rfl
    exact h
  · exact (C4_empty_and_null_filter_execute_base (mkConn traceHandle) "M").1

/-- C10 (amended): `all` destructively removes the leading element of
every sub-filter it processes; whenever the first sub-filter is
non-empty, the caller's filter descriptor is therefore changed by the
call.  (An empty first sub-filter is processed but `shift` leaves it
unchanged, so the filter can come back unchanged — see the
counterexample.) -/
theorem C10_shift_mutates_filter (self : KeyStoneJS Q) (model : String)
    (sf : List JSVal) (fs : List (List JSVal)) (h : sf ≠ []) :
    ∃ rest1,
      (self.all model (some (sf :: fs))).filterAfter = some ((shift sf).2 :: rest1) ∧
      (shift sf).2 :: rest1 ≠ sf :: fs := by
  obtain ⟨a, t, rfl⟩ : ∃ a t, sf = a :: t := by
    cases sf with
    | nil => cases h rfl
    | cons a t => exact ⟨a, t, rfl⟩
  obtain ⟨rest1, hr⟩ := chainFilters_head_shifted
    (self.keystone.lists (self.effectiveModel model)).applyCmd
    (self.keystone.lists (self.effectiveModel model)).find (a :: t) fs
  refine ⟨rest1, ?_, ?_⟩
  · rw [all_cons_filterAfter, hr]
  · intro hcontra
    have h1 := (List.cons.injEq _ _ _ _).mp hcontra
    have h2 : t = a :: t := h1.1
    exact absurd h2.symm (List.cons_ne_self a t)

/-- Witness for C10 on the tracing engine with the non-empty sub-filter
`["where"]`. -/
theorem C10_witness :
    ([JSVal.str "where"] ≠ ([] : List JSVal)) ∧
    (∃ rest1,
      ((mkConn traceHandle).all "M" (some [[JSVal.str "where"]])).filterAfter
          = some ((shift [JSVal.str "where"]).2 :: rest1) ∧
      (shift [JSVal.str "where"]).2 :: rest1 ≠ [[JSVal.str "where"]]) :=
  ⟨by simp,
   C10_shift_mutates_filter (mkConn traceHandle) "M" [JSVal.str "where"] [] (by simp)⟩

/-- Counterexample to C10 as stated: the filter `[[]]` consists of one
empty sub-filter, which `all` processes (its shifted head `undefined` is
rejected), yet `shift` on an empty array changes nothing, so the
caller's filter argument is left exactly as it was passed. -/
theorem C10_counterexample :
    ((mkConn traceHandle).all "M" (some [[]])).filterAfter = some [[]] :=
  rfl

end KeyStoneJS

namespace KeyStoneJS

variable {Q : Type}

/-- C2 (amended): with a configured prefix P whose compiled pattern
`'^' + P` matches exactly the first `P.length` characters of the
prefixed name `P ++ X` and does not match the bare name X at all (for a
metacharacter-free P this says precisely that X does not itself start
with P), every operation that strips the prefix (create, save, exists,
find, destroy, all) behaves identically on `P ++ X` and on `X`;
`updateOrCreate` — which performs its identifier extraction and its
update-attributes dispatch with the unstripped name — behaves
identically only when the framework identifier helper and the external
update-attributes delegate agree on the two names. -/
theorem C2_prefix_stripping_equivalence (self : KeyStoneJS Q) (P X : String)
    (hP : self.modelPrefix = some P)
    (hstrip : self.modelPrefixRegex (P ++ X) = some (0, P.data.length))
    (hmiss : self.modelPrefixRegex X = none) :
    (∀ d, self.create (P ++ X) d = self.create X d) ∧
    (∀ d, self.save (P ++ X) d = self.save X d) ∧
    (∀ i, self.existsOp (P ++ X) i = self.existsOp X i) ∧
    (∀ i, self.find (P ++ X) i = self.find X i) ∧
    (∀ i, self.destroy (P ++ X) i = self.destroy X i) ∧
    (∀ f, self.all (P ++ X) f = self.all X f) ∧
    (∀ d, self.getIdValue (P ++ X) d = self.getIdValue X d →
      self.updateAttributes (P ++ X) = self.updateAttributes X →
      self.updateOrCreate (P ++ X) d = self.updateOrCreate X d) := by
  obtain ⟨h1, h2⟩ := effectiveModel_strip self P X hP hstrip hmiss
  refine ⟨?_, ?_, ?_, ?_, ?_, ?_, ?_⟩
  · intro d
    simp [create, h1, h2]
  · intro d
    simp [save, h1, h2]
  · intro i
    simp [existsOp, h1, h2]
  · intro i
    simp [find, h1, h2]
  · intro i
    simp [destroy, h1, h2]
  · intro f
    simp [all, execQuery, h1, h2, fromDatabase]
  · intro d hgid hua
    simp [updateOrCreate, hgid, hua, find, create, fromDatabase, h1, h2, truthy]

end KeyStoneJS

namespace KeyStoneJS

/-- Witness for C2 on the concrete prefixed connector: P = "p" (a prefix
free of regex metacharacters, compiled to `literalPrefixMatch "p"`) and
X = "Y"; the matcher strips "pY" to "Y", misses "Y", and `create`
coincides on the two names. -/
theorem C2_witness :
    prefixConn.modelPrefix = some "p" ∧
    prefixConn.modelPrefixRegex ("p" ++ "Y") = some (0, ("p" : String).data.length) ∧
    prefixConn.modelPrefixRegex "Y" = none ∧
    prefixConn.create ("p" ++ "Y") (JSVal.obj []) = prefixConn.create "Y" (JSVal.obj []) :=
  ⟨rfl, by decide, by decide,
   (C2_prefix_stripping_equivalence prefixConn "p" "Y" rfl (by decide) (by decide)).1
     (JSVal.obj [])⟩

/-- Counterexample to C2 as stated: with prefix P = "p" (compiled, since
"p" has no regex metacharacters, to the literal matcher for /^p/) and
X = "pY" — a bare name that itself starts with the prefix — the call
with the prefixed name "ppY" resolves the registry entry "pY" while the
call with "pY" resolves "Y", so `exists` answers differently on the two
names and the claimed equivalence fails. -/
theorem C2_counterexample :
    prefixConn.existsOp ("p" ++ "pY") (JSVal.num 1) ≠ prefixConn.existsOp "pY" (JSVal.num 1) := by
  have hl : prefixConn.existsOp ("p" ++ "pY") (JSVal.num 1) = (.null, .boolean true) := rfl
  have hr : prefixConn.existsOp "pY" (JSVal.num 1) = (.null, .boolean false) := rfl
  intro h
  rw [hl, hr] at h
  have h2 := congrArg Prod.snd h
  simp only [] at h2
  have h3 := JSVal.boolean.inj h2
  cases h3

end KeyStoneJS

namespace KeyStoneJS

variable {Q : Type}

/-- C3: when the data's extracted identifier is present and resolves via
`find` (no truthy error, truthy instance) to an existing record,
`updateOrCreate` dispatches to the update-attributes delegate and never
invokes `create`. -/
theorem C3_update_path_on_existing (self : KeyStoneJS Q) (model : String) (data : JSVal)
    (h0 : isNullOrUndef (self.getIdValue model data) = false)
    (h1 : truthy (self.find model (self.getIdValue model data)).1 = false)
    (h2 : truthy (self.find model (self.getIdValue model data)).2 = true) :
    (self.updateOrCreate model data).outcome =
      self.updateAttributes model (self.getIdValue model data) data ∧
    (self.updateOrCreate model data).calledUpdateAttributes = true ∧
    (self.updateOrCreate model data).calledCreate = false := by
  simp [updateOrCreate, h0, h1, h2]

/-- Witness for C3 on the tracing engine with data `{id: 3}`: the lookup
finds a wrapped record and the update delegate's completion is returned. -/
theorem C3_witness :
    isNullOrUndef ((mkConn traceHandle).getIdValue "M" (JSVal.obj [("id", JSVal.num 3)])) = false ∧
    truthy ((mkConn traceHandle).find "M"
      ((mkConn traceHandle).getIdValue "M" (JSVal.obj [("id", JSVal.num 3)]))).1 = false ∧
    truthy ((mkConn traceHandle).find "M"
      ((mkConn traceHandle).getIdValue "M" (JSVal.obj [("id", JSVal.num 3)]))).2 = true ∧
    ((mkConn traceHandle).updateOrCreate "M" (JSVal.obj [("id", JSVal.num 3)])).calledUpdateAttributes = true ∧
    ((mkConn traceHandle).updateOrCreate "M" (JSVal.obj [("id", JSVal.num 3)])).calledCreate = false :=
  ⟨rfl, rfl, rfl,
   (C3_update_path_on_existing (mkConn traceHandle) "M" (JSVal.obj [("id", JSVal.num 3)])
     rfl rfl rfl).2.1,
   (C3_update_path_on_existing (mkConn traceHandle) "M" (JSVal.obj [("id", JSVal.num 3)])
     rfl rfl rfl).2.2⟩

/-- C6: when the extracted identifier value is absent (strictly `null` or
`undefined`), `updateOrCreate` delegates directly to `create` and never
performs the lookup by identifier. -/
theorem C6_missing_id_delegates_to_create (self : KeyStoneJS Q) (model : String) (data : JSVal)
    (h : isNullOrUndef (self.getIdValue model data) = true) :
    (self.updateOrCreate model data).outcome = self.create model data ∧
    (self.updateOrCreate model data).calledCreate = true ∧
    (self.updateOrCreate model data).calledFind = false := by
  simp [updateOrCreate, h]

/-- Witness for C6 on the tracing engine with data `{}` (no identifier
field, so extraction yields `undefined`). -/
theorem C6_witness :
    isNullOrUndef ((mkConn traceHandle).getIdValue "M" (JSVal.obj [])) = true ∧
    ((mkConn traceHandle).updateOrCreate "M" (JSVal.obj [])).outcome
      = (mkConn traceHandle).create "M" (JSVal.obj []) ∧
    ((mkConn traceHandle).updateOrCreate "M" (JSVal.obj [])).calledFind = false :=
  ⟨rfl,
   (C6_missing_id_delegates_to_create (mkConn traceHandle) "M" (JSVal.obj []) rfl).1,
   (C6_missing_id_delegates_to_create (mkConn traceHandle) "M" (JSVal.obj []) rfl).2.2⟩

/-- C7: `exists` forwards the engine error of the find-by-id lookup as
the completion error and answers with a boolean that is true exactly when
the lookup reports no (truthy) error and a non-empty (truthy) result. -/
theorem C7_exists_iff_lookup_nonempty (self : KeyStoneJS Q) (model : String) (id : JSVal) :
    self.existsOp model id =
      (((self.keystone.lists (self.effectiveModel model)).findById id).1,
       .boolean (!truthy ((self.keystone.lists (self.effectiveModel model)).findById id).1
         && truthy ((self.keystone.lists (self.effectiveModel model)).findById id).2)) ∧
    ((self.existsOp model id).2 = .boolean true ↔
      truthy ((self.keystone.lists (self.effectiveModel model)).findById id).1 = false ∧
      truthy ((self.keystone.lists (self.effectiveModel model)).findById id).2 = true) := by
  constructor
  · rfl
  · simp [existsOp, JSVal.boolean.injEq, Bool.and_eq_true, Bool.not_eq_true']

/-- C9: `create` passes no identifier to its callback, the path of
`updateOrCreate` that writes an identifier back onto the data and returns
the mutated data is never taken for any input, and the not-found branch
with a successful delegated create always completes with `(null, null)`. -/
theorem C9_notfound_create_null_result (self : KeyStoneJS Q) (model : String) (data : JSVal) :
    (self.create model data).2 = .undefined ∧
    (self.updateOrCreate model data).setIdPathTaken = false ∧
    (isNullOrUndef (self.getIdValue model data) = false →
     truthy (self.find model (self.getIdValue model data)).1 = false →
     truthy (self.find model (self.getIdValue model data)).2 = false →
     truthy (self.create model data).1 = false →
     (self.updateOrCreate model data).outcome = (.null, .null)) := by
  have hc2 : (self.create model data).2 = .undefined := rfl
  refine ⟨rfl, ?_, ?_⟩
  · simp only [updateOrCreate]
    split
    · rfl
    · split
      · rfl
      · split
        · rfl
        · split
          · rfl
          · split
            · rename_i hfalse
              rw [hc2] at hfalse
              cases hfalse
            · rfl
  · intro h0 h1 h2 h3
    simp only [updateOrCreate]
    simp only [h0, h1, h2, h3, hc2]
    simp [truthy]

/-- Witness for C9 on the not-found engine with data `{id: 3}`: the
lookup misses, the delegated create succeeds without an identifier, and
the completion is `(null, null)`. -/
theorem C9_witness :
    isNullOrUndef ((mkConn notFoundHandle).getIdValue "M" (JSVal.obj [("id", JSVal.num 3)])) = false ∧
    truthy ((mkConn notFoundHandle).find "M"
      ((mkConn notFoundHandle).getIdValue "M" (JSVal.obj [("id", JSVal.num 3)]))).2 = false ∧
    ((mkConn notFoundHandle).updateOrCreate "M" (JSVal.obj [("id", JSVal.num 3)])).outcome
      = (.null, .null) ∧
    ((mkConn notFoundHandle).updateOrCreate "M" (JSVal.obj [("id", JSVal.num 3)])).setIdPathTaken
      = false :=
  ⟨rfl, rfl,
   (C9_notfound_create_null_result (mkConn notFoundHandle) "M"
     (JSVal.obj [("id", JSVal.num 3)])).2.2 rfl rfl rfl rfl,
   (C9_notfound_create_null_result (mkConn notFoundHandle) "M"
     (JSVal.obj [("id", JSVal.num 3)])).2.1⟩

end KeyStoneJS
